import Mathlib

/-!
Verification of the primal-crossbeam library: a shallow embedding of
`src/lib.rs` (thread_spawn, from_iterator_unbounded, from_iterator_bounded,
WithObj, primes_unbounded, primes_bounded_approx) together with models of the
external collaborators (crossbeam channels, `primal` sieve/estimator/primes),
and theorems settling the specification claims.

Modelling choices:
- A finite lazy sequence (Rust `Iterator`) is embedded as a `List`; the one
  genuinely infinite sequence (`Primes::all()`) is embedded as `Nat → Nat`.
- The crossbeam channel is an external collaborator.  Its visible effect on
  the producer loop is the outcome of each `send` attempt, so a channel
  environment is a function `Nat → SendOutcome` giving the outcome of the
  i-th send attempt: `ok` (accepted), `disconnected` (receiving end dropped;
  `send` returns `Err`), or `blocked` (bounded channel full and the consumer
  never drains again, so the producer blocks forever).  Concrete consumer
  behaviours are encoded as concrete environments:
  `alwaysOk` (receiver alive; unbounded channel, or a bounded channel whose
  consumer drains to completion), `disconnectAfter k` (receiver dropped after
  k accepted sends), `boundedNoConsumerEnv cap` (receiver alive but never
  reads from a bounded channel of capacity `cap`: the first `cap` sends fill
  the buffer, every later send blocks forever).
- Running a producer yields a `RunResult`: `finished delivered drawn aborted`
  (the closure returned; `aborted = true` iff it returned early from a failed
  send; `drawn` counts items drawn from the sequence) or
  `stalled delivered drawn` (the closure blocked forever inside a send).
  Returning normally drops the sending end, which is what closes the channel
  for the receiver (collaborator semantics).
-/

/-- Outcome of one `send` attempt on the channel collaborator. -/
inductive SendOutcome where
  | ok
  | disconnected
  | blocked
  deriving DecidableEq, Repr

/-- Result of running a producer unit of work to completion (or to a
permanent block): items actually delivered into the channel, number of items
drawn from the sequence, and whether the loop was aborted by a failed send. -/
inductive RunResult (α : Type) where
  | finished (delivered : List α) (drawn : Nat) (aborted : Bool)
  | stalled (delivered : List α) (drawn : Nat)
  deriving DecidableEq, Repr

/-- `true` iff the unit of work returned (did not block forever). -/
def RunResult.isFinished {α : Type} : RunResult α → Bool
  | .finished _ _ _ => true
  | .stalled _ _ => false

/-- `true` iff the unit of work blocked forever inside a send. -/
def RunResult.isStalled {α : Type} : RunResult α → Bool
  | .finished _ _ _ => false
  | .stalled _ _ => true

/-- The producer loop shared by both bridge constructors
(`for x in it { if s.send(x).is_err() { return; } }`, src/lib.rs lines 22-28
and 40-46), run against a channel environment.  The second argument is the
sequence still to be drawn, the third the index of the next send attempt. -/
def pump {α : Type} (env : Nat → SendOutcome) : List α → Nat → RunResult α
  | [], _ => .finished [] 0 false
  | x :: xs, i =>
    match env i with
    | .ok =>
      match pump env xs (i + 1) with
      | .finished d n a => .finished (x :: d) (n + 1) a
      | .stalled d n => .stalled (x :: d) (n + 1)
    | .disconnected => .finished [] 1 true
    | .blocked => .stalled [] 1

/-- A bridge: the pair (unit of work, receiving end) returned by either
bridge constructor, represented by the captured sequence and the capacity of
the channel that was created (`none` for an unbounded channel). -/
structure Bridge (α : Type) where
  seq : List α
  cap : Option Nat
  deriving DecidableEq, Repr

/-- `from_iterator_unbounded` (src/lib.rs lines 17-31): creates an unbounded
channel and a unit of work draining `it` into its sending end. -/
def from_iterator_unbounded {α : Type} (it : List α) : Bridge α :=
  ⟨it, none⟩

/-- `from_iterator_bounded` (src/lib.rs lines 34-49): creates a bounded
channel of capacity `bound` and a unit of work draining `it` into its
sending end.  Documented in the source as assuming `it` has at most `bound`
values. -/
def from_iterator_bounded {α : Type} (it : List α) (bound : Nat) : Bridge α :=
  ⟨it, some bound⟩

/-- Run a bridge's unit of work under a channel environment. -/
def Bridge.run {α : Type} (b : Bridge α) (env : Nat → SendOutcome) : RunResult α :=
  pump env b.seq 0

/-- Environment: every send is accepted (receiver alive; unbounded channel,
or bounded channel with a consumer that drains to completion). -/
def alwaysOk : Nat → SendOutcome := fun _ => .ok

/-- Environment: the receiving end is dropped after `k` accepted sends.
Once a crossbeam send fails it fails forever, so failure is monotone. -/
def disconnectAfter (k : Nat) : Nat → SendOutcome :=
  fun i => if i < k then .ok else .disconnected

/-- Environment: bounded channel of capacity `cap` whose receiving end stays
alive but is never read: the first `cap` sends fill the buffer, and every
later send blocks forever. -/
def boundedNoConsumerEnv (cap : Nat) : Nat → SendOutcome :=
  fun i => if i < cap then .ok else .blocked

/-- The producer loop run over an infinite sequence `s` (as in
`primes_unbounded`), observed for `fuel` loop iterations starting at send
index `i`; returns the items delivered during those iterations. -/
def pumpStream {α : Type} (env : Nat → SendOutcome) (s : Nat → α) : Nat → Nat → List α
  | 0, _ => []
  | fuel + 1, i =>
    match env i with
    | .ok => s i :: pumpStream env s fuel (i + 1)
    | _ => []

/-- A bridge over an infinite sequence (unbounded constructor only). -/
structure StreamBridge (α : Type) where
  seq : Nat → α
  cap : Option Nat

/-- `from_iterator_unbounded` applied to an infinite iterator. -/
def from_iterator_unbounded_stream {α : Type} (s : Nat → α) : StreamBridge α :=
  ⟨s, none⟩

/-- Reading `k` items from the receiving end while the producer runs with a
live receiver: the channel is FIFO (collaborator guarantee), so the first `k`
items received are the first `k` items sent. -/
def StreamBridge.recvN {α : Type} (b : StreamBridge α) (k : Nat) : List α :=
  pumpStream alwaysOk b.seq k 0

/-- A task handle for a relocated unit of work (`thread::spawn`,
collaborator): carries no result value. -/
structure JoinHandle (τ : Type) where
  task : τ

/-- Modelled from the spec: the runtime's task spawner (`thread::spawn`),
which relocates the unit of work onto a concurrently running task and
returns a handle to await it. -/
def Thread.spawn {τ : Type} (f : τ) : JoinHandle τ :=
  ⟨f⟩

/-- `thread_spawn` (src/lib.rs lines 10-15): takes a pair of a unit of work
and a passthrough value, spawns the unit of work, and returns the handle
alongside the passthrough value. -/
def thread_spawn {τ α : Type} (result : τ × α) : JoinHandle τ × α :=
  let f := result.1
  let x := result.2
  (Thread.spawn f, x)

/-- `WithObj` (src/lib.rs lines 100-103): co-locates a backing object and a
value built from a reference into it.  In the embedding, moving a `WithObj`
is the identity on its fields, which models the source guarantee that the
boxed backing object's storage is stable across relocation. -/
structure WithObj (T U : Type) where
  value : T
  obj_box : U

/-- `WithObj::new` (src/lib.rs lines 105-110): boxes `obj`, then builds
`value` by applying `make_value` to a stable reference to the boxed object. -/
def WithObj.new {T U : Type} (obj : U) (make_value : U → T) : WithObj T U :=
  let obj_box := obj
  ⟨make_value obj_box, obj_box⟩

/-- The `Iterator` impl for `WithObj` (src/lib.rs lines 112-118): `next`
delegates to the contained value.  A view's iteration behaviour is given by
a step function `step : T → Option (V × T)` (next item and advanced view). -/
def WithObj.next {T U V : Type} (step : T → Option (V × T)) (w : WithObj T U) :
    Option (V × WithObj T U) :=
  match step w.value with
  | none => none
  | some (v, t) => some (v, ⟨t, w.obj_box⟩)

/-- Iterate a step function `n` times from state `s`, collecting the items
produced (stopping early if the iterator is exhausted). -/
def iterN {σ V : Type} (step : σ → Option (V × σ)) (s : σ) : Nat → List V
  | 0 => []
  | n + 1 =>
    match step s with
    | none => []
    | some (v, s2) => v :: iterN step s2 n

/-- The step function of a list viewed as an iterator. -/
def listStep {V : Type} : List V → Option (V × List V)
  | [] => none
  | x :: xs => some (x, xs)

/-- Executable primality test by trial division (used to model the `primal`
collaborators; proved equivalent to `Nat.Prime` in `isPrime_iff`). -/
def isPrime (n : Nat) : Bool :=
  decide (2 ≤ n) && (List.range n).all fun m => decide (m < 2) || decide (n % m ≠ 0)

theorem isPrime_iff (n : Nat) : isPrime n = true ↔ Nat.Prime n := by
  rw [Nat.prime_def_lt']
  simp only [isPrime, Bool.and_eq_true, List.all_eq_true, List.mem_range, Bool.or_eq_true,
    decide_eq_true_eq]
  constructor
  · rintro ⟨h2, hall⟩
    refine ⟨h2, fun m hm2 hmn hdvd => ?_⟩
    rcases hall m hmn with h | h
    · omega
    · exact h (Nat.dvd_iff_mod_eq_zero.mp hdvd)
  · rintro ⟨h2, hall⟩
    refine ⟨h2, fun m hmn => ?_⟩
    by_cases hm2 : m < 2
    · exact Or.inl hm2
    · exact Or.inr fun hmod =>
        hall m (by omega) hmn (Nat.dvd_iff_mod_eq_zero.mpr hmod)

/-- Modelled from the spec: the sieve collaborator `Sieve::new(limit)`
(external crate `primal`, absent from src/), a precomputed table enabling
enumeration of the primes in `[0, limit]`; the table is determined by its
limit. -/
structure Sieve where
  limit : Nat
  deriving DecidableEq, Repr

/-- Modelled from the spec: `Sieve::new(limit)` builds the sieve over
`[0, limit]`. -/
def Sieve.new (limit : Nat) : Sieve :=
  ⟨limit⟩

/-- Modelled from the spec: `SieveBackedPrimeSequence` — given a sieve over
`[0, limit]`, `Sieve::primes_from(s, start)` produces the lazy ascending
sequence of primes of `[0, limit]` that are `≥ start`. -/
def Sieve.primes_from (s : Sieve) (start : Nat) : List Nat :=
  ((List.range (s.limit + 1)).filter fun n => isPrime n).filter fun n => decide (start ≤ n)

/-- The true number of primes up to and including `limit`. -/
def primePi (limit : Nat) : Nat :=
  ((List.range (limit + 1)).filter fun n => isPrime n).length

/-- There is a prime strictly above any `p` (Euclid, via Mathlib). -/
theorem nextPrimeExists (p : Nat) : ∃ q, p < q ∧ isPrime q = true := by
  obtain ⟨q, hq, hqp⟩ := Nat.exists_infinite_primes (p + 1)
  refine ⟨q, by omega, ?_⟩
  rw [isPrime_iff]
  exact hqp

/-- The least prime strictly above `p`. -/
def nextPrime (p : Nat) : Nat :=
  Nat.find (nextPrimeExists p)

/-- Modelled from the spec: `InfinitePrimeSequence` (`Primes::all()` of the
external crate `primal`, absent from src/) — the lazy infinite ascending
sequence of all primes; `primeStream n` is its n-th item. -/
def primeStream : Nat → Nat
  | 0 => 2
  | n + 1 => nextPrime (primeStream n)

/-- `primes_unbounded` (src/lib.rs lines 51-63): bridges `Primes::all()`
through an unbounded channel. -/
def primes_unbounded : StreamBridge Nat :=
  from_iterator_unbounded_stream primeStream

/-- `primes_bounded_approx` (src/lib.rs lines 120-127), with the external
estimator's returned `high` value taken as a parameter (the spec specifies
the estimator only as returning a numeric interval `(low, high)` on the
prime count): builds a sieve over `[0, limit]`, wraps the view
`Sieve::primes_from(s, 0).take(high)` in an Owned View, and bridges it
through a bounded channel of capacity `high`. -/
def primes_bounded_approx (limit high : Nat) : Bridge Nat :=
  from_iterator_bounded
    ((WithObj.new (Sieve.new limit) fun s => (Sieve.primes_from s 0).take high).value)
    high

/-- Definition following the spec's words for the approximate-bound
generator (`approx_bounded_primes`): construction identical to the
provable-bound generator but without any truncation of the sieve-backed
sequence, the estimate's high value sizing only the channel capacity. -/
def approx_bounded_primes_spec (limit high : Nat) : Bridge Nat :=
  from_iterator_bounded (Sieve.primes_from (Sieve.new limit) 0) high

/-- Modelled from the spec: `bounded_primes(limit)` (absent from src/, where
only the unused struct `PrimesBounded` remains) — builds a sieve-backed view
over `[0, limit]`, self-truncates it to stop once a value exceeds `limit`,
and bridges it through a bounded channel whose capacity is the estimator's
provable upper bound `high` on the prime count (taken as a parameter). -/
def bounded_primes (limit high : Nat) : Bridge Nat :=
  from_iterator_bounded
    ((Sieve.primes_from (Sieve.new limit) 0).takeWhile fun n => decide (n ≤ limit))
    high

theorem primes_from_zero (limit : Nat) :
    Sieve.primes_from (Sieve.new limit) 0 =
      (List.range (limit + 1)).filter fun n => isPrime n := by
  simp [Sieve.primes_from, Sieve.new]

theorem pump_ok {α : Type} (env : Nat → SendOutcome) (l : List α) (i : Nat)
    (h : ∀ j, i ≤ j → j < i + l.length → env j = SendOutcome.ok) :
    pump env l i = RunResult.finished l l.length false := by
  induction l generalizing i with
  | nil => simp [pump]
  | cons x xs ih =>
    have h0 : env i = SendOutcome.ok := h i (Nat.le_refl i) (by simp)
    have hrec := ih (i + 1) fun j hj1 hj2 => h j (by omega) (by simp; omega)
    simp [pump, h0, hrec]

theorem pump_disconnect {α : Type} (l : List α) (k i : Nat) (hk : k < l.length) :
    pump (disconnectAfter (i + k)) l i = RunResult.finished (l.take k) (k + 1) true := by
  induction l generalizing k i with
  | nil => simp at hk
  | cons x xs ih =>
    cases k with
    | zero =>
      rw [Nat.add_zero]
      have h0 : disconnectAfter i i = SendOutcome.disconnected := by
        simp [disconnectAfter]
      simp [pump, h0]
    | succ k2 =>
      have he : i + (k2 + 1) = (i + 1) + k2 := by omega
      rw [he]
      have h0 : disconnectAfter ((i + 1) + k2) i = SendOutcome.ok := by
        simp [disconnectAfter]
        omega
      have hrec := ih k2 (i + 1) (by simp at hk; omega)
      simp [pump, h0, hrec]

theorem pump_no_blocked {α : Type} (env : Nat → SendOutcome) (l : List α) (i : Nat)
    (h : ∀ j, env j ≠ SendOutcome.blocked) :
    ∃ d n a, pump env l i = RunResult.finished d n a ∧
      (a = false → d = l ∧ n = l.length) := by
  induction l generalizing i with
  | nil => exact ⟨[], 0, false, rfl, fun _ => ⟨rfl, rfl⟩⟩
  | cons x xs ih =>
    cases henv : env i with
    | ok =>
      obtain ⟨d, n, a, hd, himp⟩ := ih (i + 1)
      refine ⟨x :: d, n + 1, a, by simp [pump, henv, hd], ?_⟩
      intro ha
      obtain ⟨h1, h2⟩ := himp ha
      subst h1
      simp [h2]
    | disconnected => exact ⟨[], 1, true, by simp [pump, henv], by simp⟩
    | blocked => exact absurd henv (h i)

theorem iterN_withObj {T U V : Type} (step : T → Option (V × T)) (w : WithObj T U) (n : Nat) :
    iterN (WithObj.next step) w n = iterN step w.value n := by
  induction n generalizing w with
  | zero => rfl
  | succ n ih =>
    cases hs : step w.value with
    | none => simp [iterN, WithObj.next, hs]
    | some p =>
      obtain ⟨v, t⟩ := p
      simp [iterN, WithObj.next, hs]
      exact ih ⟨t, w.obj_box⟩

theorem nextPrime_two : nextPrime 2 = 3 := by
  show Nat.find (nextPrimeExists 2) = 3
  rw [Nat.find_eq_iff]
  decide

theorem nextPrime_three : nextPrime 3 = 5 := by
  show Nat.find (nextPrimeExists 3) = 5
  rw [Nat.find_eq_iff]
  decide

theorem primeStream_one : primeStream 1 = 3 := by
  show nextPrime (primeStream 0) = 3
  show nextPrime 2 = 3
  exact nextPrime_two

theorem primeStream_two : primeStream 2 = 5 := by
  show nextPrime (primeStream 1) = 5
  rw [primeStream_one]
  exact nextPrime_three

/-- Claim C1: for every finite sequence fed through either bridge
constructor, running the unit of work with the receiver draining to
completion (every send accepted) delivers exactly the items of the sequence,
in original order, with nothing added, dropped, or reordered; the FIFO
channel collaborator then hands the drained items to the consumer in that
same order. -/
theorem C1_order_preservation {α : Type} (l : List α) (b : Nat) :
    Bridge.run (from_iterator_unbounded l) alwaysOk =
      RunResult.finished l l.length false ∧
    Bridge.run (from_iterator_bounded l b) alwaysOk =
      RunResult.finished l l.length false :=
  ⟨pump_ok alwaysOk l 0 fun _ _ _ => rfl,
   pump_ok alwaysOk l 0 fun _ _ _ => rfl⟩

/-- Claim C2: for every sequence and either bridge, if the receiving end is
dropped after `k` accepted sends and the sequence has more than `k` items,
the unit of work returns normally (no error), delivers exactly the first `k`
items, discards the rest, and draws exactly `k + 1` items from the sequence:
only the one item already drawn for the failed send is consumed past the
cancellation point. -/
theorem C2_cancellation {α : Type} (l : List α) (k b : Nat) (hk : k < l.length) :
    Bridge.run (from_iterator_unbounded l) (disconnectAfter k) =
      RunResult.finished (l.take k) (k + 1) true ∧
    Bridge.run (from_iterator_bounded l b) (disconnectAfter k) =
      RunResult.finished (l.take k) (k + 1) true := by
  have h := pump_disconnect l k 0 hk
  rw [Nat.zero_add] at h
  exact ⟨h, h⟩

theorem C2_cancellation_witness :
    Bridge.run (from_iterator_unbounded [10, 20, 30]) (disconnectAfter 1) =
      RunResult.finished [10] 2 true ∧
    Bridge.run (from_iterator_bounded [10, 20, 30] 5) (disconnectAfter 1) =
      RunResult.finished [10] 2 true :=
  C2_cancellation [10, 20, 30] 1 5 (by decide)

/-- Claim C3 counterexample: the claim says the estimator's high value
bounds nothing about the sequence the approximate generator drains, i.e.
that the construction equals the spec-worded one with the untruncated sieve
sequence; at `limit = 10`, `high = 2` the two constructions differ (the code
applies `take(high)` to the sequence). -/
theorem C3_counterexample :
    primes_bounded_approx 10 2 ≠ approx_bounded_primes_spec 10 2 := by
  decide

/-- Claim C3 (amended): `primes_bounded_approx limit` passes capacity
`high` to the bounded bridge, and its sequence is not the untruncated
sieve-backed sequence but that sequence additionally truncated by
`take(high)` to at most the first `high` primes. -/
theorem C3_construction (limit high : Nat) :
    primes_bounded_approx limit high =
      from_iterator_bounded ((Sieve.primes_from (Sieve.new limit) 0).take high) high ∧
    (primes_bounded_approx limit high).cap = some high ∧
    (primes_bounded_approx limit high).seq =
      (approx_bounded_primes_spec limit high).seq.take high :=
  ⟨rfl, rfl, rfl⟩

/-- Claim C4 counterexample: at `limit = 10`, `high = 2` the estimate is
smaller than the true prime count (2 < 4), yet with a consumer that never
drains the unit of work does not stall — the `take(high)` truncation keeps
the number of sends within the channel capacity. -/
theorem C4_counterexample :
    2 < primePi 10 ∧
    RunResult.isStalled
      (Bridge.run (primes_bounded_approx 10 2) (boundedNoConsumerEnv 2)) = false := by
  decide

/-- Claim C4 (amended): even when the estimator high value understates the
true prime count, the unit of work of `primes_bounded_approx` does not
stall when the consumer never drains: exactly `high` items (the first
`high` primes) are sent, which fit in the capacity-`high` channel, and the
unit of work terminates normally. -/
theorem C4_no_stall_on_underestimate (limit high : Nat) (h : high < primePi limit) :
    Bridge.run (primes_bounded_approx limit high) (boundedNoConsumerEnv high) =
      RunResult.finished ((Sieve.primes_from (Sieve.new limit) 0).take high) high false := by
  have hl : (Sieve.primes_from (Sieve.new limit) 0).length = primePi limit := by
    rw [primes_from_zero]
    rfl
  have hlen : ((Sieve.primes_from (Sieve.new limit) 0).take high).length = high := by
    simp [List.length_take, hl]
    omega
  have hrun := pump_ok (boundedNoConsumerEnv high)
    ((Sieve.primes_from (Sieve.new limit) 0).take high) 0
    (fun j hj1 hj2 => by
      have hj : j < high := by
        rw [Nat.zero_add, hlen] at hj2
        exact hj2
      simp [boundedNoConsumerEnv, hj])
  rw [hlen] at hrun
  exact hrun

theorem C4_no_stall_on_underestimate_witness :
    Bridge.run (primes_bounded_approx 10 2) (boundedNoConsumerEnv 2) =
      RunResult.finished ((Sieve.primes_from (Sieve.new 10) 0).take 2) 2 false :=
  C4_no_stall_on_underestimate 10 2 (by decide)

/-- Claim C5 (the generator is modelled from the spec, src/ has no
`bounded_primes`): for every estimator high value that is a true upper bound
on the four primes up to 10, the unit of work of `bounded_primes 10`
terminates — even with a consumer that never drains — after delivering
exactly 2, 3, 5, 7 and nothing more; returning drops the sending end, which
closes the channel for the consumer. -/
theorem C5_bounded_primes_ten (high : Nat) (h : 4 ≤ high) :
    Bridge.run (bounded_primes 10 high) (boundedNoConsumerEnv high) =
      RunResult.finished [2, 3, 5, 7] 4 false := by
  have hseq : ((Sieve.primes_from (Sieve.new 10) 0).takeWhile fun n => decide (n ≤ 10)) =
      [2, 3, 5, 7] := by decide
  show pump (boundedNoConsumerEnv high)
    ((Sieve.primes_from (Sieve.new 10) 0).takeWhile fun n => decide (n ≤ 10)) 0 = _
  rw [hseq]
  exact pump_ok (boundedNoConsumerEnv high) [2, 3, 5, 7] 0 fun j hj1 hj2 => by
    have hj : j < high := by
      simp at hj2
      omega
    simp [boundedNoConsumerEnv, hj]

theorem C5_bounded_primes_ten_witness :
    Bridge.run (bounded_primes 10 4) (boundedNoConsumerEnv 4) =
      RunResult.finished [2, 3, 5, 7] 4 false :=
  C5_bounded_primes_ten 4 (by decide)

/-- Claim C6 counterexample: with a bounded channel of capacity 0 and a
consumer that never drains, the unit of work over the one-item sequence
`[0]` does not terminate — it stalls in the first send, a third outcome
beside exhaustion and abort. -/
theorem C6_counterexample :
    ¬ RunResult.isFinished
        (Bridge.run (from_iterator_bounded [0] 0) (boundedNoConsumerEnv 0)) = true := by
  decide

/-- Claim C6 (amended): for every finite sequence and every channel
environment in which no send blocks forever (always true for the unbounded
bridge; true for the bounded bridge when the consumer eventually drains or
drops), the unit of work of either bridge terminates, and only two terminal
outcomes exist: exhaustion (`aborted = false`, in which case every item was
drawn and delivered and the dropped sending end closes the channel) or abort
after a failed send (`aborted = true`); there is no retry. -/
theorem C6_termination_no_block {α : Type} (l : List α) (b : Nat)
    (env : Nat → SendOutcome) (henv : ∀ j, env j ≠ SendOutcome.blocked) :
    (∃ d n a, Bridge.run (from_iterator_unbounded l) env = RunResult.finished d n a ∧
      (a = false → d = l ∧ n = l.length)) ∧
    (∃ d n a, Bridge.run (from_iterator_bounded l b) env = RunResult.finished d n a ∧
      (a = false → d = l ∧ n = l.length)) :=
  ⟨pump_no_blocked env l 0 henv, pump_no_blocked env l 0 henv⟩

theorem C6_termination_no_block_witness :
    (∃ d n a, Bridge.run (from_iterator_unbounded [1, 2]) alwaysOk =
        RunResult.finished d n a ∧
      (a = false → d = [1, 2] ∧ n = ([1, 2] : List Nat).length)) ∧
    (∃ d n a, Bridge.run (from_iterator_bounded [1, 2] 3) alwaysOk =
        RunResult.finished d n a ∧
      (a = false → d = [1, 2] ∧ n = ([1, 2] : List Nat).length)) :=
  C6_termination_no_block [1, 2] 3 alwaysOk (by intro j h; simp [alwaysOk] at h)

/-- Claim C7: iterating a `WithObj` built from a backing object and a
view-making function yields, for every number of steps, exactly the values
of iterating the view made from the backing object directly — `next`
delegates to the contained view, and relocation (a move) is the identity on
the structure's fields in this embedding, so the equality also covers the
relocated unit. -/
theorem C7_withObj_iteration {T U V : Type} (step : T → Option (V × T)) (obj : U)
    (make_value : U → T) (n : Nat) :
    iterN (WithObj.next step) (WithObj.new obj make_value) n =
      iterN step (make_value obj) n := by
  rw [iterN_withObj]
  rfl

/-- Claim C8: `thread_spawn` applied to a pair of a unit of work and a
passthrough value returns the spawn handle for the unit of work together
with the passthrough value itself, forwarded unchanged. -/
theorem C8_spawn_passthrough {τ α : Type} (f : τ) (x : α) :
    thread_spawn (f, x) = (Thread.spawn f, x) ∧ (thread_spawn (f, x)).2 = x :=
  ⟨rfl, rfl⟩

/-- Claim C9: reading three items from the receiving end of
`primes_unbounded` yields 2, then 3, then 5, in that order. -/
theorem C9_unbounded_first_three :
    StreamBridge.recvN primes_unbounded 3 = [2, 3, 5] := by
  show [primeStream 0, primeStream 1, primeStream 2] = [2, 3, 5]
  rw [primeStream_one, primeStream_two]
  rfl

/-- Claim C10: for every limit and estimator high value, the sequence
drained by `primes_bounded_approx` is the sieve-backed prime sequence
truncated by `take high`, so at most `high` items are ever sent; the drained
output is exactly the first `high` primes up to the limit (never a prime
beyond them), and the unit of work terminates even when the receiving end is
never read from. -/
theorem C10_take_truncation (limit high : Nat) :
    Bridge.run (primes_bounded_approx limit high) (boundedNoConsumerEnv high) =
      RunResult.finished ((Sieve.primes_from (Sieve.new limit) 0).take high)
        ((Sieve.primes_from (Sieve.new limit) 0).take high).length false ∧
    ((Sieve.primes_from (Sieve.new limit) 0).take high).length ≤ high := by
  have hlen : ((Sieve.primes_from (Sieve.new limit) 0).take high).length ≤ high := by
    simp [List.length_take]
  refine ⟨?_, hlen⟩
  exact pump_ok (boundedNoConsumerEnv high)
    ((Sieve.primes_from (Sieve.new limit) 0).take high) 0
    fun j hj1 hj2 => by
      have hj : j < high := by
        rw [Nat.zero_add] at hj2
        omega
      simp [boundedNoConsumerEnv, hj]
